import Mathlib

/-!
Verification of the request-to-query translation core of `hapi-pg-rest-api`,
a REST-over-Postgres route generator.

The JavaScript source is shallowly embedded: JS objects become association
lists from `String` keys to values, the SQL query builder becomes pure
functions producing SQL text plus a bound-parameter list (with a structured
fragment form whose rendering reproduces the exact strings built by the
source), and the external collaborators (the Joi validation engine, the
database driver, the HTTP layer) are passed in as explicit capabilities,
exactly as the specification designates them as opaque collaborators.

Module map (JS file → Lean namespace):
  * `src/query.js` (`SQLQueryBuilder`)        → `Query`
  * `src/repository.js` (`Repository`)        → `Repo`
  * `src/helpers.js`                          → `Helpers`
  * `src/request.js` (`Request`)              → `Req`
  * `src/validators.js`                       → `Validators`
  * `src/rest-api.js` (`HAPIRestAPI`)         → `RestApi`
  * route handlers (controller module)        → `Controller`

The file is organised as definitions first, then the supporting lemmas and
the claim theorems.
-/

namespace HapiPg

/-- A JavaScript object, embedded as an association list in property
insertion order.  Parsed JSON objects have pairwise distinct keys. -/
abbrev JsObj (α : Type) := List (String × α)

/-- Property read `o[k]`: the value at the first entry with key `k`. -/
def objGet {α : Type} (o : JsObj α) (k : String) : Option α :=
  (o.find? (fun kv => kv.1 = k)).map (fun kv => kv.2)

/-- Property write `o[k] = v`: replace the value of an existing key in
place, otherwise append the new property (JS assignment semantics). -/
def objSet {α : Type} (o : JsObj α) (k : String) (v : α) : JsObj α :=
  match o with
  | [] => [(k, v)]
  | kv :: rest => if kv.1 = k then (k, v) :: rest else kv :: objSet rest k v

/-- Model of `Object.assign(base, src)`: copy every property of `src` onto `base`
in order, later writes overriding earlier values. -/
def objAssign {α : Type} (base src : JsObj α) : JsObj α :=
  src.foldl (fun acc kv => objSet acc kv.1 kv.2) base

/-- The keys of an object, in property order (`Object.keys`). -/
def objKeys {α : Type} (o : JsObj α) : List String :=
  o.map Prod.fst

/-- A JavaScript error value as the error mapper reads it: a class name,
a message, and the optional driver error `code`. -/
structure JsError where
  name : String
  message : String
  code : Option String := none
deriving Repr, DecidableEq

/-- Model of `new ValidationError(message)` from `src/errors.js`. -/
def validationError (msg : String) : JsError :=
  { name := "ValidationError", message := msg }

/-- Model of `new NotFoundError()` from `src/errors.js`. -/
def notFoundError : JsError :=
  { name := "NotFoundError", message := "" }

namespace Query

/-- A value occurring in a (flattened) filter object, as consumed by
`SQLQueryBuilder.getFilterQuery`: `null`, an array, or a scalar. -/
inductive FilterValue (α : Type) where
  | nullV : FilterValue α
  | arr (vs : List α) : FilterValue α
  | scalar (v : α) : FilterValue α
deriving Repr, DecidableEq

/-- A filter object: field name to filter value, in property order. -/
abbrev Filter (α : Type) := List (String × FilterValue α)

/-- One SQL `WHERE` fragment produced by `getFilterQuery`, in structured
form; placeholder positions are the 1-based `$n` indices. -/
inductive SqlFrag where
  | isNull (field : String)
  | falseCond
  | inList (field : String) (idxs : List Nat)
  | eq (field : String) (idx : Nat)
deriving Repr, DecidableEq

/-- Placeholder text `$n`. -/
def placeholder (n : Nat) : String := s!"${n}"

/-- Rendering of a structured fragment; reproduces, character for
character, the strings pushed onto `memo` in `getFilterQuery`. -/
def SqlFrag.render : SqlFrag → String
  | .isNull field => s!" {field} IS NULL "
  | .falseCond => " 0=1 "
  | .inList field idxs =>
      let bind := String.intercalate "," (idxs.map placeholder)
      s!" {field} IN ({bind})"
  | .eq field idx => s!" {field}={placeholder idx} "

/-- The `$n` indices a fragment binds. -/
def SqlFrag.indices : SqlFrag → List Nat
  | .isNull _ => []
  | .falseCond => []
  | .inList _ idxs => idxs
  | .eq _ idx => [idx]

/-- All `$n` indices of a fragment list, in order of appearance. -/
def fragsIndices (frags : List SqlFrag) : List Nat :=
  frags.flatMap SqlFrag.indices

/-- One iteration of the `reduce` in `getFilterQuery`: dispatch on the
value shape (null / empty array / array / scalar), pushing fragments and
bound parameters. -/
def filterStep {α : Type} (acc : List SqlFrag × List α) (kv : String × FilterValue α) :
    List SqlFrag × List α :=
  match kv.2 with
  | .nullV => (acc.1 ++ [.isNull kv.1], acc.2)
  | .arr [] => (acc.1 ++ [.falseCond], acc.2)
  | .arr vs =>
      (acc.1 ++ [.inList kv.1 (List.range' (acc.2.length + 1) vs.length)], acc.2 ++ vs)
  | .scalar v => (acc.1 ++ [.eq kv.1 (acc.2.length + 1)], acc.2 ++ [v])

/-- Model of `getFilterQuery`'s traversal of the filter object, producing the
structured fragments plus the bound-parameter list (`queryParams`). -/
def getFilterFragsParams {α : Type} (filter : Filter α) (params0 : List α) :
    List SqlFrag × List α :=
  filter.foldl filterStep ([], params0)

/-- The structured `WHERE` fragments of a filter. -/
def getFilterFrags {α : Type} (filter : Filter α) : List SqlFrag :=
  (getFilterFragsParams filter []).1

/-- The bound parameters of a filter, in binding order. -/
def getFilterParams {α : Type} (filter : Filter α) : List α :=
  (getFilterFragsParams filter []).2

/-- Model of `WHERE` clause text: empty when there is no fragment, else
`' WHERE '` followed by the fragments joined with `' AND '`. -/
def whereClause (frags : List SqlFrag) : String :=
  if frags.isEmpty then ""
  else " WHERE " ++ String.intercalate " AND " (frags.map SqlFrag.render)

/-- Model of `SQLQueryBuilder.getFilterQuery`: SQL text plus bound parameters. -/
def getFilterQuery {α : Type} (filter : Filter α) : String × List α :=
  (whereClause (getFilterFrags filter), getFilterParams filter)

/-- A sort object: field name to direction (`-1` descending, anything
else ascending), in property order. -/
abbrev SortObj := List (String × Int)

/-- Model of `SQLQueryBuilder.getSortQuery`. -/
def getSortQuery (sort : SortObj) : String :=
  let parts := sort.map (fun kv => s!"{kv.1} " ++ (if kv.2 = -1 then "DESC" else "ASC"))
  if parts.isEmpty then "" else " ORDER BY " ++ String.intercalate ", " parts

/-- Pagination object `{page, perPage}` (integers after `parseInt`). -/
structure Pagination where
  page : Int
  perPage : Int
deriving Repr, DecidableEq

/-- Model of `SQLQueryBuilder.getPaginationQuery`: `LIMIT`/`OFFSET` clause when
pagination is set, empty string otherwise. -/
def getPaginationQuery (pagination : Option Pagination) : String :=
  match pagination with
  | some p =>
      let limit := p.perPage
      let offset := (p.page - 1) * limit
      s!" LIMIT {limit} OFFSET {offset} "
  | none => ""

/-- Builder configuration (the slice of the API config the query builder
reads). -/
structure BuilderConfig where
  table : String
deriving Repr, DecidableEq

/-- Model of `SQLQueryBuilder.selectQuery`. -/
def selectQuery {α : Type} (cfg : BuilderConfig) (filter : Filter α) (sort : SortObj)
    (pagination : Option Pagination) : String × List α :=
  let fq := getFilterQuery filter
  (s!"SELECT * FROM {cfg.table} " ++ fq.1 ++ getSortQuery sort
      ++ getPaginationQuery pagination,
    fq.2)

/-- Model of `SQLQueryBuilder.selectRowCountQuery`. -/
def selectRowCountQuery {α : Type} (cfg : BuilderConfig) (filter : Filter α) :
    String × List α :=
  let fq := getFilterQuery filter
  (s!"SELECT COUNT(*) AS totalrowcount FROM {cfg.table} " ++ fq.1, fq.2)

/-- Model of `SQLQueryBuilder.deleteQuery`. -/
def deleteQuery {α : Type} (cfg : BuilderConfig) (filter : Filter α) :
    String × List α :=
  let fq := getFilterQuery filter
  (s!"DELETE FROM {cfg.table} " ++ fq.1, fq.2)

/-- One iteration of the `map` over `this.data` in `updateQuery`: push the
value and emit `field=$n` with `n` the new parameter count. -/
def updateSetStep {α : Type} (acc : List (String × Nat) × List α) (kv : String × α) :
    List (String × Nat) × List α :=
  (acc.1 ++ [(kv.1, acc.2.length + 1)], acc.2 ++ [kv.2])

/-- The `SET` clause bookkeeping of `updateQuery`: field/placeholder
pairs plus the parameter list continued from the filter's. -/
def updateSetFold {α : Type} (data : JsObj α) (params0 : List α) :
    List (String × Nat) × List α :=
  data.foldl updateSetStep ([], params0)

/-- The structured content of `SQLQueryBuilder.updateQuery`: `WHERE`
fragments, `SET` assignments (field, placeholder index), and the full
bound-parameter list (filter parameters first, then data values). -/
structure UpdateBuilt (α : Type) where
  whereFrags : List SqlFrag
  setParts : List (String × Nat)
  params : List α

/-- Structured form of `updateQuery`. -/
def updateQueryStruct {α : Type} (filter : Filter α) (data : JsObj α) :
    UpdateBuilt α :=
  let fq := getFilterFragsParams filter []
  let su := updateSetFold data fq.2
  { whereFrags := fq.1, setParts := su.1, params := su.2 }

/-- Model of `SQLQueryBuilder.updateQuery`: rendered SQL text plus parameters. -/
def updateQuery {α : Type} (cfg : BuilderConfig) (filter : Filter α) (data : JsObj α) :
    String × List α :=
  let b := updateQueryStruct filter data
  let parts := b.setParts.map (fun kv => s!"{kv.1}=" ++ placeholder kv.2)
  (s!"UPDATE {cfg.table} SET " ++ String.intercalate "," parts ++ " "
      ++ whereClause b.whereFrags ++ " RETURNING * ",
    b.params)

/-- The parameters a single filter value contributes, in order. -/
def valueParams {α : Type} : FilterValue α → List α
  | .nullV => []
  | .arr vs => vs
  | .scalar v => [v]

/-- All bound parameters of a filter: scalar leaves in traversal order,
array lengths summed. -/
def filterParams {α : Type} (filter : Filter α) : List α :=
  filter.flatMap (fun kv => valueParams kv.2)

/-- Positional specification of the fragments `getFilterQuery` emits,
given the number of parameters already bound before the filter. -/
def fragsFrom {α : Type} : Filter α → Nat → List SqlFrag
  | [], _ => []
  | (field, .nullV) :: rest, base => .isNull field :: fragsFrom rest base
  | (field, .arr []) :: rest, base => .falseCond :: fragsFrom rest base
  | (field, .arr vs) :: rest, base =>
      .inList field (List.range' (base + 1) vs.length) :: fragsFrom rest (base + vs.length)
  | (field2, .scalar _) :: rest, base => .eq field2 (base + 1) :: fragsFrom rest (base + 1)

/-- Positional specification of the `SET` assignments `updateQuery`
emits, given the number of parameters bound before the data object. -/
def setPartsFrom {α : Type} : JsObj α → Nat → List (String × Nat)
  | [], _ => []
  | (field, _) :: rest, base => (field, base + 1) :: setPartsFrom rest (base + 1)

/-- Truth of a fragment in a row, reading field values through `lk` and
placeholders through the bound-parameter list (`$n` is `params[n-1]`).
`0=1` holds in no row. -/
def SqlFrag.sat {α : Type} (lk : String → Option α) (params : List α) :
    SqlFrag → Prop
  | .isNull field => lk field = none
  | .falseCond => False
  | .inList field idxs => ∃ i ∈ idxs, ∃ v, params.get? (i - 1) = some v ∧ lk field = some v
  | .eq field idx => ∃ v, params.get? (idx - 1) = some v ∧ lk field = some v

/-- A row satisfies a `WHERE` clause iff it satisfies every fragment
(the fragments are joined with `AND`). -/
def fragsSat {α : Type} (lk : String → Option α) (params : List α)
    (frags : List SqlFrag) : Prop :=
  ∀ fr ∈ frags, fr.sat lk params

end Query

namespace Repo

/-- The `mongo-sql` query object `Repository.find` assembles.  A set
`limit`/`offset` field renders as a `LIMIT`/`OFFSET` clause; `none`
renders nothing. -/
structure FindQuery (α : Type) where
  type : String
  table : String
  limit : Option Int
  offset : Option Int
  whereFilter : JsObj α
  order : JsObj String
  columns : Option (List String)

/-- Model of `Repository.mapSort`: `+1`/`-1` directions to `ASC`/`DESC`. -/
def mapSort (sort : JsObj Int) : JsObj String :=
  sort.map (fun kv => (kv.1, if kv.2 = -1 then "DESC" else "ASC"))

/-- Model of `Repository.find`'s query object: a hard-coded `limit: 10` in the
base object, overridden (and an offset added) only when pagination is
supplied; `columns` only when given. -/
def findQuery {α : Type} (table : String) (filter : JsObj α) (sort : JsObj Int)
    (pagination : Option Query.Pagination) (columns : Option (List String)) :
    FindQuery α :=
  let base : FindQuery α :=
    { type := "select", table := table, limit := some 10, offset := none,
      whereFilter := filter, order := mapSort sort, columns := columns }
  match pagination with
  | some p => { base with limit := some p.perPage, offset := some ((p.page - 1) * p.perPage) }
  | none => base

end Repo

namespace Helpers

/-- JS `parseInt(x, 10)` restricted to what a Postgres error code needs:
the maximal run of leading decimal digits, `none` for `NaN` (no digits
or an absent code). -/
def parseIntJs : Option String → Option Nat
  | none => none
  | some s =>
      let ds := s.data.takeWhile Char.isDigit
      if ds.isEmpty then none
      else some (ds.foldl (fun a c => a * 10 + (c.toNat - 48)) 0)

/-- The error member of a response body: either the `{name, message}`
shape produced by `formatError`, or the `{name: 'DBError', code}` shape
(with the code as parsed number or as raw driver value). -/
inductive ErrPayload where
  | details (name message : String)
  | dbInt (code : Option Nat)
  | dbRaw (code : Option String)
deriving Repr, DecidableEq

/-- An HTTP reply: status code plus the standard `{error, data}`
envelope (and the optional `rowCount`). -/
structure Reply (δ : Type) where
  status : Nat
  error : Option ErrPayload
  data : Option δ
  rowCount : Option Nat := none

/-- Model of `formatError` from `src/helpers.js`: a status code with a
`{name, message}` error body and `data: null`. -/
def formatError {δ : Type} (code : Nat) (e : JsError) : Reply δ :=
  { status := code, error := some (.details e.name e.message), data := none }

/-- Model of `errorReply` from `src/helpers.js`: named internal errors map to
fixed statuses; anything else is treated as a database error, `400` for
the codes `23505`/`23502` (after `parseInt`), `500` otherwise, with the
body exposing only `{name: 'DBError', code}`. -/
def errorReply {δ : Type} (e : JsError) : Reply δ :=
  if e.name = "ValidationError" then formatError 400 e
  else if e.name = "ConfigError" then formatError 500 e
  else if e.name = "NotFoundError" then formatError 404 e
  else if e.name = "NotImplementedError" then formatError 501 e
  else
    let code := parseIntJs e.code
    let isBad : Bool := match code with
      | some c => [23505, 23502].contains c
      | none => false
    { status := if isBad then 400 else 500, error := some (.dbInt code), data := none }

/-- Model of `getStringCode`: `(code || '').toString()`. -/
def getStringCode (code : Option String) : String := code.getD ""

/-- Model of `isCodeEqual`: string comparison of two codes. -/
def isCodeEqual (a b : Option String) : Bool := getStringCode a = getStringCode b

/-- Model of `isBadRequest`: whether a Postgres error code maps to HTTP 400. -/
def isBadRequest (code : Option String) : Bool :=
  isCodeEqual code (some "23505") || isCodeEqual code (some "23502")

/-- The `standard`-style `errorReply` variant of `src/helpers.js`
(the one exported alongside `throwIfError`): same mapping but comparing
codes as strings via `isBadRequest` and echoing the raw code. -/
def errorReplyStd {δ : Type} (e : JsError) : Reply δ :=
  if e.name = "ValidationError" then formatError 400 e
  else if e.name = "NotFoundError" then formatError 404 e
  else if e.name = "NotImplementedError" then formatError 501 e
  else
    { status := if isBadRequest e.code then 400 else 500,
      error := some (.dbRaw e.code), data := none }

/-- The filter assembly of `getRequestData` (`src/helpers.js`): parse the
`filter` query parameter (empty object when absent), then overwrite the
primary-key property with the path id when the path carries one. -/
def getRequestDataFilter {α : Type} (primaryKey : String) (paramsId : Option α)
    (queryFilter : Option (JsObj α)) : JsObj α :=
  let filter := queryFilter.getD []
  match paramsId with
  | some i => objSet filter primaryKey i
  | none => filter

end Helpers

namespace Req

/-- Lower-casing a string character by character (ASCII suffices for the
HTTP verbs and operator keys compared case-insensitively). -/
def lowerStr (s : String) : String := String.mk (s.data.map Char.toLower)

/-- The regex test `request.method.match(/^put|patch|delete$/i)`: by
regex alternation precedence this is `(^put) | (patch) | (delete$)`,
case-insensitively. -/
def methodMatchesMutate (m : String) : Bool :=
  let t := (lowerStr m).data
  "put".data.isPrefixOf t || decide ("patch".data <:+: t) || "delete".data.isSuffixOf t

/-- The command object `Request.processRequest` assembles and passes to
validation and the query builder. -/
structure Command (α : Type) where
  data : JsObj α
  filter : JsObj α
  sort : JsObj Int
  pagination : Option Query.Pagination
  columns : Option (List String)

/-- The slice of the API config the request processor reads. -/
structure ReqConfig where
  primaryKey : String
  pagination : Option Query.Pagination

/-- An inbound HTTP request as the request processor reads it.  Query
parameters are carried in already-JSON-parsed form (the malformed-JSON
branches throw a validation error before any of the logic modelled
here runs). -/
structure PRequest (α : Type) where
  method : String
  paramsId : Option α := none
  queryFilter : Option (JsObj α) := none
  querySort : Option (JsObj Int) := none
  queryPagination : Option Query.Pagination := none
  queryColumns : Option (List String) := none
  payload : Option (JsObj α) := none

/-- The filter assembled by `processRequest` (`src/request.js`): start
from `{}`, write the primary key from the path id if present, then
`Object.assign({}, queryFilter, pathFilter)` so the path-derived entry
wins on conflicting keys. -/
def assembledFilter {α : Type} (cfg : ReqConfig) (req : PRequest α) : JsObj α :=
  let filter0 : JsObj α :=
    match req.paramsId with
    | some i => objSet ([] : JsObj α) cfg.primaryKey i
    | none => []
  match req.queryFilter with
  | some pf => objAssign (objAssign [] pf) filter0
  | none => filter0

/-- The full command `processRequest` assembles before validating. -/
def assembledCommand {α : Type} (cfg : ReqConfig) (req : PRequest α) : Command α :=
  { data := req.payload.getD []
    filter := assembledFilter cfg req
    sort := match req.querySort with
      | some s => objAssign [] s
      | none => []
    pagination := match req.queryPagination with
      | some p => some p
      | none => cfg.pagination
    columns := req.queryColumns }

/-- Model of `Request.processRequest`: assemble the command, validate it (the
Joi-backed `Request.validate` is the `validate` capability), then for
PUT/PATCH/DELETE refuse an empty filter, and finally pass the command
through the integrator's `preQuery` hook. -/
def processRequest {α : Type} (cfg : ReqConfig) (validate : Command α → Option JsError)
    (preQuery : Command α → Command α) (req : PRequest α) :
    Except JsError (Command α) :=
  let result := assembledCommand cfg req
  match validate result with
  | some e => .error e
  | none =>
      if methodMatchesMutate req.method && decide (result.filter.length < 1) then
        .error (validationError "For PUT/PATCH/DELETE, filter criteria cannot be empty")
      else
        .ok (preQuery result)

end Req

namespace RestApi

/-- The integrator-supplied configuration: `primaryKeyAuto` and
`primaryKeyGuid` may be left unspecified (`none`). -/
structure UserApiConfig where
  primaryKey : String
  validationKeys : List String
  primaryKeyAuto : Option Bool := none
  primaryKeyGuid : Option Bool := none

/-- The configuration after the constructor's `Object.assign` with the
defaults. -/
structure ApiConfig where
  primaryKey : String
  validationKeys : List String
  primaryKeyAuto : Bool
  primaryKeyGuid : Bool

/-- The `HAPIRestAPI` constructor's defaulting: `primaryKeyAuto: false`,
`primaryKeyGuid: true`, overridden by any value the integrator set. -/
def applyDefaults (c : UserApiConfig) : ApiConfig :=
  { primaryKey := c.primaryKey
    validationKeys := c.validationKeys
    primaryKeyAuto := c.primaryKeyAuto.getD false
    primaryKeyGuid := c.primaryKeyGuid.getD true }

/-- The primary-key generation step of `create`: overwrite
`data[primaryKey]` with a fresh `uuidV4()` (passed in as `freshUuid`)
exactly when the key is not auto-incremented and is GUID-generated. -/
def createApplyPrimaryKey {α : Type} (cfg : ApiConfig) (data : JsObj α)
    (freshUuid : α) : JsObj α :=
  if !cfg.primaryKeyAuto && cfg.primaryKeyGuid then
    objSet data cfg.primaryKey freshUuid
  else data

/-- Model of `permitPrimaryKey` from `Request.validate`: the payload may carry the
primary key only when it is neither auto- nor GUID-generated. -/
def permitPrimaryKey (cfg : ApiConfig) : Bool :=
  !cfg.primaryKeyAuto && !cfg.primaryKeyGuid

/-- The keys of the Joi schema the payload is validated against:
`omit(validation, [primaryKey])` unless the caller may supply the key. -/
def dataSchemaKeys (cfg : ApiConfig) : List String :=
  if permitPrimaryKey cfg then cfg.validationKeys
  else cfg.validationKeys.filter (fun k => k ≠ cfg.primaryKey)

/-- The key-level part of Joi object validation of the payload: Joi
rejects keys missing from the schema (per-field value checks are the
validation engine's internals and are orthogonal to key admission). -/
def validateDataKeys {α : Type} (cfg : ApiConfig) (data : JsObj α) : Bool :=
  data.all (fun kv => (dataSchemaKeys cfg).contains kv.1)

end RestApi

namespace Validators

/-- Lexicographic code-unit comparison, the order in which JS
`Array.prototype.sort()` sorts strings by default. -/
def charsLe : List Char → List Char → Bool
  | [], _ => true
  | _ :: _, [] => false
  | a :: as, b :: bs =>
      if a = b then charsLe as bs else decide (a.toNat < b.toNat)

/-- Predicate `strLeB a b`: `a` sorts no later than `b`. -/
def strLeB (a b : String) : Bool := charsLe a.data b.data

/-- Insertion into a sorted list (model of `Array.prototype.sort()`). -/
def insertKey (x : String) : List String → List String
  | [] => [x]
  | y :: ys => if strLeB x y then x :: y :: ys else y :: insertKey x ys

/-- Model of `Object.keys(row).sort()`. -/
def sortKeys : List String → List String
  | [] => []
  | x :: xs => insertKey x (sortKeys xs)

/-- Model of `Array.prototype.join(',')`. -/
def joinComma : List String → String
  | [] => ""
  | [x] => x
  | x :: rest => x ++ "," ++ joinComma rest

/-- Character-level view of `joinComma`, used to reason about when two
key strings can collide. -/
def joinCommaChars : List (List Char) → List Char
  | [] => []
  | [x] => x
  | x :: rest => x ++ ',' :: joinCommaChars rest

/-- Model of `createKeyStr` inside `checkIdenticalKeys`: the row's sorted keys
joined with commas. -/
def keyStr {α : Type} (row : JsObj α) : String :=
  joinComma (sortKeys (objKeys row))

/-- Model of `checkIdenticalKeys` from `src/validators.js`: every row's key
string must equal the first row's.  (On an empty array the JS would
fault reading `data[0]`; an empty multi-row insert never reaches it.) -/
def checkIdenticalKeys {α : Type} (rows : List (JsObj α)) : Bool :=
  match rows with
  | [] => true
  | first :: _ => rows.all (fun row => keyStr row = keyStr first)

/-- A Joi object schema at the key level: the declared field names and
the explicitly forbidden keys (`Joi.forbidden()`); per-field value rules
belong to the validation engine. -/
structure JoiObjSchema where
  fields : List String
  forbiddenKeys : List String
deriving Repr, DecidableEq

/-- Model of `config.validation` as a key-level schema. -/
def baseSchema (validationKeys : List String) : JoiObjSchema :=
  { fields := validationKeys, forbiddenKeys := [] }

/-- Model of `schema.keys({k: Joi.forbidden()})`. -/
def JoiObjSchema.forbid (s : JoiObjSchema) (k : String) : JoiObjSchema :=
  { s with forbiddenKeys := s.forbiddenKeys ++ [k] }

/-- The row schema `validateCreatePayload` builds: the primary key is
forbidden exactly when it is server-generated (auto or guid). -/
def rowSchema (cfg : RestApi.ApiConfig) : JoiObjSchema :=
  if cfg.primaryKeyAuto || cfg.primaryKeyGuid then
    (baseSchema cfg.validationKeys).forbid cfg.primaryKey
  else baseSchema cfg.validationKeys

/-- A create payload: a single object or an array of objects. -/
inductive CreatePayload (α : Type) where
  | single (row : JsObj α)
  | multi (rows : List (JsObj α))

/-- Model of `validateCreatePayload` from `src/validators.js` (the Joi-v16+
variant shipped at HEAD): reject a multi-row payload whose rows do not
share one key set before any row is validated; otherwise validate every
row against the same `rowSchema` (`Joi.array().items(rowSchema)`, whose
engine is the `joi` capability returning the first failing row's
error). -/
def validateCreatePayload {α : Type} (joi : JoiObjSchema → JsObj α → Option JsError)
    (cfg : RestApi.ApiConfig) (payload : CreatePayload α) : Option JsError :=
  match payload with
  | .multi rows =>
      if !checkIdenticalKeys rows then
        some (validationError "All objects must have same keys in multi-row insert")
      else rows.findSome? (joi (rowSchema cfg))
  | .single row => joi (rowSchema cfg) row

/-- Model of `validateFilter` from `src/validators.js`: with `isRequired` set
(bulk update/delete) an empty filter is rejected outright; otherwise the
flattened filter values go to the Joi engine (the `joi` capability). -/
def validateFilter {α : Type} (joi : JsObj α → Option JsError) (filter : JsObj α)
    (isRequired : Bool) : Option JsError :=
  if isRequired && filter.isEmpty then
    some (validationError "Filter parameter is required")
  else joi filter

end Validators

namespace Controller

/-- A persistence-layer operation issued by a handler. -/
inductive DbOp where
  | selectOp
  | insertOp
  | updateOp
  | deleteOp
deriving Repr, DecidableEq

/-- The tail of the `findOne` handler, after `repo.find` resolves with
`rows`: not-found unless exactly one row matched. -/
def findOneRespond {α : Type} (postSelect : List (JsObj α) → List (JsObj α))
    (rows : List (JsObj α)) : Helpers.Reply (JsObj α) :=
  if rows.length ≠ 1 then Helpers.errorReply notFoundError
  else { status := 200, error := none, data := (postSelect rows).head? }

/-- The tail of the `updateOne` handler, after `repo.update` resolves
with `rows`/`rowCount`: not-found unless exactly one row was updated. -/
def updateOneRespond {α : Type} (rows : List (JsObj α)) (rowCount : Nat) :
    Helpers.Reply (JsObj α) :=
  if rowCount ≠ 1 then Helpers.errorReply notFoundError
  else { status := 200, error := none, data := rows.head?, rowCount := some rowCount }

/-- The `updateMany` handler: a required-filter check, then payload
validation, then the single `repo.update` call (its result injected as
`dbRows`/`dbRowCount`); the second component records which persistence
operations were issued. -/
def updateManyHandler {α : Type} (joiFilter : JsObj α → Option JsError)
    (joiPayload : JsObj α → Option JsError) (filter payload : JsObj α)
    (dbRows : List (JsObj α)) (dbRowCount : Nat) :
    Helpers.Reply (List (JsObj α)) × List DbOp :=
  match Validators.validateFilter joiFilter filter true with
  | some e => (Helpers.errorReply e, [])
  | none =>
      match joiPayload payload with
      | some e => (Helpers.errorReply e, [])
      | none =>
          ({ status := 200, error := none, data := some dbRows,
             rowCount := some dbRowCount }, [DbOp.updateOp])

/-- The `deleteMany` handler: a required-filter check, then the single
`repo.delete` call. -/
def deleteManyHandler {α : Type} (joiFilter : JsObj α → Option JsError)
    (filter : JsObj α) (dbRowCount : Nat) :
    Helpers.Reply (List (JsObj α)) × List DbOp :=
  match Validators.validateFilter joiFilter filter true with
  | some e => (Helpers.errorReply e, [])
  | none =>
      ({ status := 200, error := none, data := none, rowCount := some dbRowCount },
        [DbOp.deleteOp])

end Controller

/-- A JSON/JavaScript value, as found in a parsed filter object. -/
inductive JsVal where
  | str (s : String)
  | num (n : Int)
  | boolean (b : Bool)
  | nullV
  | arr (elems : List JsVal)
  | obj (fields : List (String × JsVal))
deriving Repr

namespace Filters

/-- JS `typeof v === 'object'` — true for objects, arrays and `null`. -/
def isObjectType : JsVal → Bool
  | .nullV => true
  | .arr _ => true
  | .obj _ => true
  | _ => false

/-- Model of `Array.isArray`. -/
def isJsArray : JsVal → Bool
  | .arr _ => true
  | _ => false

/-- Model of `v === null`. -/
def isNullVal : JsVal → Bool
  | .nullV => true
  | _ => false

/-- The regex test `key.match(/^\$i?like$/i)`. -/
def isLikeKey (k : String) : Bool :=
  Req.lowerStr k = "$like" || Req.lowerStr k = "$ilike"

mutual

/-- The `objectWalk` traversal of `getFilterValues`: visit every
property depth-first in insertion order, pushing a value when it is not
an object and its key is not a (case-insensitive) `$like`/`$ilike`
operator, and recursing into object-typed values. -/
def walkCollect : JsVal → List JsVal
  | .obj fields => walkFields fields
  | .arr elems => walkElems elems
  | _ => []

def walkFields : List (String × JsVal) → List JsVal
  | [] => []
  | (k, v) :: rest =>
      (if !isObjectType v && !isLikeKey k then [v] else [])
        ++ (if isObjectType v then walkCollect v else [])
        ++ walkFields rest

def walkElems : List JsVal → List JsVal
  | [] => []
  | v :: rest =>
      (if !isObjectType v then [v] else [])
        ++ (if isObjectType v then walkCollect v else [])
        ++ walkElems rest

end

/-- The per-value normalisation of `getFilterValues`: scalars, arrays
and `null` pass through unchanged; an operator object is replaced by the
array of its collected leaf values. -/
def normalizeValue (v : JsVal) : JsVal :=
  if !isObjectType v || isJsArray v || isNullVal v then v
  else JsVal.arr (walkCollect v)

/-- Model of `getFilterValues` (`src/validators.js` / `Request.getFilterValues`):
`mapValues` of the normalisation over the filter object. -/
def getFilterValues (filter : JsObj JsVal) : JsObj JsVal :=
  filter.map (fun kv => (kv.1, normalizeValue kv.2))

end Filters

/-! ### Supporting lemmas -/

theorem objGet_objSet_self {α : Type} (o : JsObj α) (k : String) (v : α) :
    objGet (objSet o k v) k = some v := by
  induction o with
  | nil => simp [objSet, objGet, List.find?]
  | cons kv rest ih =>
    by_cases hk : kv.1 = k
    · simp [objSet, objGet, List.find?, hk]
    · simpa [objSet, objGet, List.find?, hk] using ih

theorem objGet_objSet_other {α : Type} (o : JsObj α) (k k' : String) (v : α)
    (hne : k' ≠ k) : objGet (objSet o k v) k' = objGet o k' := by
  have hkk : ¬ (k = k') := fun h => hne h.symm
  induction o with
  | nil => simp [objSet, objGet, List.find?, hkk]
  | cons kv rest ih =>
    by_cases hk : kv.1 = k
    · have hk' : ¬ kv.1 = k' := by rw [hk]; exact hkk
      simp [objSet, objGet, List.find?, hk, hk', hkk]
    · by_cases hk' : kv.1 = k'
      · simp [objSet, objGet, List.find?, hk, hk', hne]
      · simpa [objSet, objGet, List.find?, hk, hk'] using ih

theorem objGet_objAssign_singleton {α : Type} (o : JsObj α) (k : String) (v : α) :
    objAssign o [(k, v)] = objSet o k v := rfl

/-- Copying an object with pairwise distinct keys via `Object.assign`
preserves every lookup. -/
theorem objGet_objAssign {α : Type} (base src : JsObj α) (k : String)
    (hnd : (objKeys src).Nodup) :
    objGet (objAssign base src) k = (objGet src k).or (objGet base k) := by
  induction src generalizing base with
  | nil => simp [objAssign, objGet, List.find?]
  | cons kv rest ih =>
    rw [objKeys, List.map_cons, List.nodup_cons] at hnd
    obtain ⟨hk, hrest⟩ := hnd
    have step : objAssign base (kv :: rest) = objAssign (objSet base kv.1 kv.2) rest := rfl
    rw [step, ih _ hrest]
    by_cases hkk : kv.1 = k
    · subst hkk
      have hnone : objGet rest kv.1 = none := by
        unfold objGet
        have hfind : List.find? (fun kvx => kvx.1 = kv.1) rest = none := by
          rw [List.find?_eq_none]
          intro x hx
          simp only [decide_eq_true_eq]
          intro hx1
          exact hk (hx1 ▸ List.mem_map_of_mem Prod.fst hx)
        rw [hfind]
        rfl
      have hself := objGet_objSet_self base kv.1 kv.2
      simp only [objGet] at hnone hself
      simp [objGet, Option.or, hnone, hself]
    · have hfirst : objGet (kv :: rest) k = objGet rest k := by
        simp [objGet, List.find?, hkk]
      rw [hfirst, objGet_objSet_other _ _ _ _ (fun h => hkk h.symm)]

/-- Writing a property never removes entries. -/
theorem length_objSet {α : Type} (o : JsObj α) (k : String) (v : α) :
    o.length ≤ (objSet o k v).length := by
  induction o with
  | nil => simp [objSet]
  | cons kv rest ih =>
    by_cases hk : kv.1 = k
    · simp [objSet, hk]
    · simpa [objSet, hk] using ih

theorem length_objAssign {α : Type} (base src : JsObj α) :
    base.length ≤ (objAssign base src).length := by
  induction src generalizing base with
  | nil => simp [objAssign]
  | cons kv rest ih =>
    have step : objAssign base (kv :: rest) = objAssign (objSet base kv.1 kv.2) rest := rfl
    rw [step]
    exact le_trans (length_objSet base kv.1 kv.2) (ih _)

namespace Query

theorem foldl_filterStep_eq {α : Type} (filter : Filter α) :
    ∀ (frags0 : List SqlFrag) (params0 : List α),
      filter.foldl filterStep (frags0, params0)
        = (frags0 ++ fragsFrom filter params0.length, params0 ++ filterParams filter) := by
  induction filter with
  | nil => intro frags0 params0; simp [fragsFrom, filterParams]
  | cons kv rest ih =>
    intro frags0 params0
    obtain ⟨field, v⟩ := kv
    cases v with
    | nullV =>
        simp only [List.foldl_cons, filterStep, ih, fragsFrom, filterParams, valueParams]
        simp [List.append_assoc, valueParams, filterParams]
    | arr vs =>
        cases vs with
        | nil =>
            simp only [List.foldl_cons, filterStep, ih, fragsFrom, filterParams, valueParams]
            simp [List.append_assoc, valueParams, filterParams]
        | cons w ws =>
            simp only [List.foldl_cons, filterStep, ih, fragsFrom, filterParams, valueParams]
            simp [List.append_assoc, valueParams, filterParams, Nat.add_comm, Nat.add_assoc,
              Nat.add_left_comm]
    | scalar v =>
        simp only [List.foldl_cons, filterStep, ih, fragsFrom, filterParams, valueParams]
        simp [List.append_assoc, valueParams, filterParams]

theorem getFilterFrags_eq {α : Type} (filter : Filter α) :
    getFilterFrags filter = fragsFrom filter 0 := by
  unfold getFilterFrags getFilterFragsParams
  rw [foldl_filterStep_eq]
  simp

theorem getFilterParams_eq {α : Type} (filter : Filter α) :
    getFilterParams filter = filterParams filter := by
  unfold getFilterParams getFilterFragsParams
  rw [foldl_filterStep_eq]
  simp

theorem falseCond_mem_fragsFrom {α : Type} (filter : Filter α) (field : String) :
    ∀ base, (field, FilterValue.arr ([] : List α)) ∈ filter →
      SqlFrag.falseCond ∈ fragsFrom filter base := by
  induction filter with
  | nil => intro base h; cases h
  | cons kv rest ih =>
    intro base h
    obtain ⟨f, v⟩ := kv
    rcases List.mem_cons.mp h with heq | hmem
    · cases heq
      simp [fragsFrom]
    · cases v with
      | nullV => exact List.mem_cons_of_mem _ (ih base hmem)
      | arr vs =>
          cases vs with
          | nil => simp [fragsFrom]
          | cons w ws => exact List.mem_cons_of_mem _ (ih _ hmem)
      | scalar v => exact List.mem_cons_of_mem _ (ih _ hmem)

theorem not_fragsSat_of_falseCond {α : Type} (lk : String → Option α)
    (params : List α) (frags : List SqlFrag)
    (h : SqlFrag.falseCond ∈ frags) : ¬ fragsSat lk params frags := by
  intro hsat
  exact hsat SqlFrag.falseCond h

theorem range'_one_append (s m n : Nat) :
    List.range' s m ++ List.range' (s + m) n = List.range' s (m + n) := by
  have h := List.range'_append s m n 1
  rw [Nat.one_mul] at h
  rw [Nat.add_comm m n]
  exact h

theorem fragsIndices_cons (fr : SqlFrag) (frags : List SqlFrag) :
    fragsIndices (fr :: frags) = fr.indices ++ fragsIndices frags := by
  simp [fragsIndices]

theorem fragsIndices_fragsFrom {α : Type} (filter : Filter α) :
    ∀ base : Nat,
      fragsIndices (fragsFrom filter base)
        = List.range' (base + 1) (filterParams filter).length := by
  induction filter with
  | nil => intro base; simp [fragsIndices, fragsFrom, filterParams]
  | cons kv rest ih =>
    intro base
    obtain ⟨field, v⟩ := kv
    cases v with
    | nullV =>
        rw [show fragsFrom ((field, FilterValue.nullV) :: rest) base
              = SqlFrag.isNull field :: fragsFrom rest base from rfl]
        rw [fragsIndices_cons, ih base]
        simp [SqlFrag.indices, filterParams, valueParams]
    | arr vs =>
        cases vs with
        | nil =>
            rw [show fragsFrom ((field, FilterValue.arr ([] : List α)) :: rest) base
                  = SqlFrag.falseCond :: fragsFrom rest base from rfl]
            rw [fragsIndices_cons, ih base]
            simp [SqlFrag.indices, filterParams, valueParams]
        | cons w ws =>
            rw [show fragsFrom ((field, FilterValue.arr (w :: ws)) :: rest) base
                  = SqlFrag.inList field (List.range' (base + 1) (w :: ws).length)
                      :: fragsFrom rest (base + (w :: ws).length) from rfl]
            rw [fragsIndices_cons, ih (base + (w :: ws).length)]
            have hfp : filterParams ((field, FilterValue.arr (w :: ws)) :: rest)
                = (w :: ws) ++ filterParams rest := by
              simp [filterParams, valueParams]
            rw [hfp, List.length_append]
            rw [show (SqlFrag.inList field (List.range' (base + 1) (w :: ws).length)).indices
                  = List.range' (base + 1) (w :: ws).length from rfl]
            rw [show base + (w :: ws).length + 1 = (base + 1) + (w :: ws).length by omega]
            rw [range'_one_append]
    | scalar v =>
        rw [show fragsFrom ((field, FilterValue.scalar v) :: rest) base
              = SqlFrag.eq field (base + 1) :: fragsFrom rest (base + 1) from rfl]
        rw [fragsIndices_cons, ih (base + 1)]
        have hfp : filterParams ((field, FilterValue.scalar v) :: rest)
            = v :: filterParams rest := by
          simp [filterParams, valueParams]
        rw [hfp, List.length_cons]
        rw [show (SqlFrag.eq field (base + 1)).indices = [base + 1] from rfl]
        rw [show ([base + 1] : List Nat) = List.range' (base + 1) 1 by simp]
        rw [range'_one_append]
        rw [Nat.add_comm 1 (filterParams rest).length]

theorem foldl_updateSetStep_eq {α : Type} (data : JsObj α) :
    ∀ (parts0 : List (String × Nat)) (params0 : List α),
      data.foldl updateSetStep (parts0, params0)
        = (parts0 ++ setPartsFrom data params0.length, params0 ++ data.map Prod.snd) := by
  induction data with
  | nil => intro parts0 params0; simp [setPartsFrom]
  | cons kv rest ih =>
    intro parts0 params0
    obtain ⟨field, v⟩ := kv
    simp only [List.foldl_cons, updateSetStep, ih, setPartsFrom]
    simp [List.append_assoc]

theorem setPartsFrom_map_snd {α : Type} (data : JsObj α) :
    ∀ base : Nat,
      (setPartsFrom data base).map Prod.snd = List.range' (base + 1) data.length := by
  induction data with
  | nil => intro base; simp [setPartsFrom]
  | cons kv rest ih =>
    intro base
    obtain ⟨field, v⟩ := kv
    rw [show setPartsFrom ((field, v) :: rest) base
          = (field, base + 1) :: setPartsFrom rest (base + 1) from rfl]
    rw [List.map_cons, ih (base + 1)]
    rw [List.length_cons, List.range'_succ]

theorem updateQueryStruct_whereFrags {α : Type} (filter : Filter α) (data : JsObj α) :
    (updateQueryStruct filter data).whereFrags = fragsFrom filter 0 := by
  simp [updateQueryStruct, getFilterFragsParams, updateSetFold,
    foldl_filterStep_eq, foldl_updateSetStep_eq]

theorem updateQueryStruct_setParts {α : Type} (filter : Filter α) (data : JsObj α) :
    (updateQueryStruct filter data).setParts
      = setPartsFrom data (filterParams filter).length := by
  simp [updateQueryStruct, getFilterFragsParams, updateSetFold,
    foldl_filterStep_eq, foldl_updateSetStep_eq]

theorem updateQueryStruct_params {α : Type} (filter : Filter α) (data : JsObj α) :
    (updateQueryStruct filter data).params
      = filterParams filter ++ data.map Prod.snd := by
  simp [updateQueryStruct, getFilterFragsParams, updateSetFold,
    foldl_filterStep_eq, foldl_updateSetStep_eq]

end Query

theorem string_append_right_empty (s : String) : s ++ "" = s := by
  apply String.ext
  simp [String.data_append]

/-! ### Claim theorems -/

/-- C1.  `getFilterQuery` translates each filter field by value shape —
`null` to `field IS NULL`, an empty array to the unsatisfiable `0=1`
with no bound parameter, a non-empty array of length `n` to
`field IN (...)` binding exactly `n` parameters, a scalar to
`field=$n` binding one parameter (this is the content of `fragsFrom`
combined with `SqlFrag.render`); consequently a filter containing an
empty-array field produces a `WHERE` clause no row satisfies, and the
select, select-count, update and delete builders all embed exactly this
`WHERE` clause and bind exactly these parameters. -/
theorem c1_filter_where_translation {α : Type} (filter : Query.Filter α) :
    Query.getFilterFrags filter = Query.fragsFrom filter 0
    ∧ Query.getFilterParams filter = Query.filterParams filter
    ∧ Query.SqlFrag.falseCond.render = " 0=1 "
    ∧ (∀ field : String, (field, Query.FilterValue.arr ([] : List α)) ∈ filter →
        Query.SqlFrag.falseCond ∈ Query.getFilterFrags filter
        ∧ ∀ lk : String → Option α,
            ¬ Query.fragsSat lk (Query.getFilterParams filter)
                (Query.getFilterFrags filter))
    ∧ (∀ (cfg : Query.BuilderConfig) (sort : Query.SortObj)
          (pag : Option Query.Pagination) (data : JsObj α),
        (Query.selectQuery cfg filter sort pag).2 = Query.getFilterParams filter
        ∧ (Query.selectRowCountQuery cfg filter).2 = Query.getFilterParams filter
        ∧ (Query.deleteQuery cfg filter).2 = Query.getFilterParams filter
        ∧ (Query.updateQuery cfg filter data).2
            = Query.getFilterParams filter ++ data.map Prod.snd
        ∧ (∃ pre post, (Query.selectQuery cfg filter sort pag).1
              = pre ++ Query.whereClause (Query.getFilterFrags filter) ++ post)
        ∧ (∃ pre, (Query.selectRowCountQuery cfg filter).1
              = pre ++ Query.whereClause (Query.getFilterFrags filter))
        ∧ (∃ pre, (Query.deleteQuery cfg filter).1
              = pre ++ Query.whereClause (Query.getFilterFrags filter))
        ∧ (∃ pre post, (Query.updateQuery cfg filter data).1
              = pre ++ Query.whereClause (Query.getFilterFrags filter) ++ post)) := by
  refine ⟨Query.getFilterFrags_eq filter, Query.getFilterParams_eq filter, rfl, ?_, ?_⟩
  · intro field hmem
    have hfc : Query.SqlFrag.falseCond ∈ Query.getFilterFrags filter := by
      rw [Query.getFilterFrags_eq]
      exact Query.falseCond_mem_fragsFrom filter field 0 hmem
    exact ⟨hfc, fun lk => Query.not_fragsSat_of_falseCond lk _ _ hfc⟩
  · intro cfg sort pag data
    refine ⟨rfl, rfl, rfl, ?_, ?_, ?_, ?_, ?_⟩
    · rw [Query.getFilterParams_eq]
      exact Query.updateQueryStruct_params filter data
    · exact ⟨s!"SELECT * FROM {cfg.table} ",
        Query.getSortQuery sort ++ Query.getPaginationQuery pag,
        String.append_assoc _ _ _⟩
    · exact ⟨s!"SELECT COUNT(*) AS totalrowcount FROM {cfg.table} ", rfl⟩
    · exact ⟨s!"DELETE FROM {cfg.table} ", rfl⟩
    · exact ⟨s!"UPDATE {cfg.table} SET "
          ++ String.intercalate ","
              ((Query.updateQueryStruct filter data).setParts.map
                (fun kv => s!"{kv.1}=" ++ Query.placeholder kv.2)) ++ " ",
        " RETURNING * ", rfl⟩

/-- Closed witness for C1 at a concrete filter exercising every value
shape. -/
theorem c1_filter_where_translation_witness :
    Query.SqlFrag.falseCond
        ∈ Query.getFilterFrags
            [("a", Query.FilterValue.arr ([] : List String)),
             ("b", Query.FilterValue.nullV),
             ("c", Query.FilterValue.scalar "z")]
    ∧ ∀ lk : String → Option String,
        ¬ Query.fragsSat lk
            (Query.getFilterParams
              [("a", Query.FilterValue.arr ([] : List String)),
               ("b", Query.FilterValue.nullV),
               ("c", Query.FilterValue.scalar "z")])
            (Query.getFilterFrags
              [("a", Query.FilterValue.arr ([] : List String)),
               ("b", Query.FilterValue.nullV),
               ("c", Query.FilterValue.scalar "z")]) :=
  (c1_filter_where_translation
      [("a", Query.FilterValue.arr ([] : List String)),
       ("b", Query.FilterValue.nullV),
       ("c", Query.FilterValue.scalar "z")]).2.2.2.1 "a" (by decide)

/-- C4.  In the update statement, parameter numbering runs sequentially
across the whole statement: with `m` bound filter parameters and `k`
data fields, the bound parameter list is the `m` filter parameters
followed by the `k` data values (length `m + k`), the `WHERE` clause
uses placeholders `$1 … $m`, the `SET` clause continues with
`$(m+1) … $(m+k)`, and together the placeholder indices are exactly
`1 … m+k`, each used exactly once. -/
theorem c4_update_parameter_numbering {α : Type} (cfg : Query.BuilderConfig)
    (filter : Query.Filter α) (data : JsObj α) :
    (Query.updateQueryStruct filter data).params.length
        = (Query.filterParams filter).length + data.length
    ∧ (Query.updateQueryStruct filter data).params
        = Query.filterParams filter ++ data.map Prod.snd
    ∧ Query.fragsIndices (Query.updateQueryStruct filter data).whereFrags
        = List.range' 1 (Query.filterParams filter).length
    ∧ (Query.updateQueryStruct filter data).setParts.map Prod.snd
        = List.range' ((Query.filterParams filter).length + 1) data.length
    ∧ Query.fragsIndices (Query.updateQueryStruct filter data).whereFrags
          ++ (Query.updateQueryStruct filter data).setParts.map Prod.snd
        = List.range' 1 ((Query.filterParams filter).length + data.length)
    ∧ (Query.fragsIndices (Query.updateQueryStruct filter data).whereFrags
          ++ (Query.updateQueryStruct filter data).setParts.map Prod.snd).Nodup
    ∧ (Query.updateQuery cfg filter data).2 = (Query.updateQueryStruct filter data).params := by
  have hw : Query.fragsIndices (Query.updateQueryStruct filter data).whereFrags
      = List.range' 1 (Query.filterParams filter).length := by
    rw [Query.updateQueryStruct_whereFrags]
    simpa using Query.fragsIndices_fragsFrom filter 0
  have hs : (Query.updateQueryStruct filter data).setParts.map Prod.snd
      = List.range' ((Query.filterParams filter).length + 1) data.length := by
    rw [Query.updateQueryStruct_setParts]
    exact Query.setPartsFrom_map_snd data (Query.filterParams filter).length
  have happ : Query.fragsIndices (Query.updateQueryStruct filter data).whereFrags
        ++ (Query.updateQueryStruct filter data).setParts.map Prod.snd
      = List.range' 1 ((Query.filterParams filter).length + data.length) := by
    rw [hw, hs]
    rw [show (Query.filterParams filter).length + 1
          = 1 + (Query.filterParams filter).length by omega]
    exact Query.range'_one_append 1 (Query.filterParams filter).length data.length
  refine ⟨?_, Query.updateQueryStruct_params filter data, hw, hs, happ, ?_, rfl⟩
  · rw [Query.updateQueryStruct_params]
    simp
  · rw [happ]
    exact List.nodup_range' 1 _

/-- C5 counterexample.  A select command with absent pagination, built
by the live `Repository.find`, carries a `LIMIT` clause: the base query
object hard-codes `limit: 10`, so the generated SQL reads `LIMIT 10`
instead of returning all matching rows — refuting the claim that absent
pagination yields a query with no `LIMIT` clause. -/
theorem c5_counterexample_repository_default_limit :
    (Repo.findQuery "sessions" ([] : JsObj String) [] none none).limit = some 10
    ∧ (Repo.findQuery "sessions" ([] : JsObj String) [] none none).limit ≠ none :=
  ⟨rfl, by simp [Repo.findQuery]⟩

/-- C5 (amended).  With pagination present both builders emit
`LIMIT perPage OFFSET (page-1)*perPage` (for `SQLQueryBuilder` as the
final suffix of the select text); with pagination absent the legacy
`SQLQueryBuilder` emits no pagination clause at all, while the live
`Repository.find` keeps its base object's default `limit: 10` (and no
offset), so at most 10 rows are returned rather than all. -/
theorem c5_pagination_translation {α : Type} :
    (∀ (cfg : Query.BuilderConfig) (filter : Query.Filter α)
        (sort : Query.SortObj) (p : Query.Pagination),
      (Query.selectQuery cfg filter sort (some p)).1
        = (Query.selectQuery cfg filter sort none).1
            ++ s!" LIMIT {p.perPage} OFFSET {(p.page - 1) * p.perPage} ")
    ∧ Query.getPaginationQuery none = ""
    ∧ (∀ p : Query.Pagination,
        Query.getPaginationQuery (some p)
          = s!" LIMIT {p.perPage} OFFSET {(p.page - 1) * p.perPage} ")
    ∧ (∀ (table : String) (filter : JsObj α) (sort : JsObj Int)
          (cols : Option (List String)) (p : Query.Pagination),
        (Repo.findQuery table filter sort (some p) cols).limit = some p.perPage
        ∧ (Repo.findQuery table filter sort (some p) cols).offset
            = some ((p.page - 1) * p.perPage))
    ∧ (∀ (table : String) (filter : JsObj α) (sort : JsObj Int)
          (cols : Option (List String)),
        (Repo.findQuery table filter sort none cols).limit = some 10
        ∧ (Repo.findQuery table filter sort none cols).offset = none) := by
  refine ⟨?_, rfl, fun p => rfl, fun table filter sort cols p => ⟨rfl, rfl⟩,
    fun table filter sort cols => ⟨rfl, rfl⟩⟩
  intro cfg filter sort p
  rw [show (Query.selectQuery cfg filter sort none).1
        = (s!"SELECT * FROM {cfg.table} " ++ (Query.getFilterQuery filter).1
            ++ Query.getSortQuery sort) ++ "" from rfl]
  rw [string_append_right_empty]
  rfl

/-- C7.  Every error that reaches the mapper without one of the four
internal class names — in particular every persistence-layer error — is
answered as a `DBError`: HTTP 400 exactly when the machine-readable code
parses to `23505` or `23502`, HTTP 500 for every other code, and the
body exposes only `{error: {name: 'DBError', code}, data: null}`.  The
`standard`-style variant compares the codes as strings
(`isBadRequest`), with the same 400/500 split. -/
theorem c7_db_error_mapping (e : JsError)
    (h1 : e.name ≠ "ValidationError") (h2 : e.name ≠ "ConfigError")
    (h3 : e.name ≠ "NotFoundError") (h4 : e.name ≠ "NotImplementedError") :
    ((Helpers.errorReply e : Helpers.Reply Unit).status = 400
        ↔ Helpers.parseIntJs e.code = some 23505 ∨ Helpers.parseIntJs e.code = some 23502)
    ∧ ((Helpers.errorReply e : Helpers.Reply Unit).status = 400
        ∨ (Helpers.errorReply e : Helpers.Reply Unit).status = 500)
    ∧ (Helpers.errorReply e : Helpers.Reply Unit).error
        = some (Helpers.ErrPayload.dbInt (Helpers.parseIntJs e.code))
    ∧ (Helpers.errorReply e : Helpers.Reply Unit).data = none
    ∧ ((Helpers.errorReplyStd e : Helpers.Reply Unit).status = 400
        ↔ Helpers.isBadRequest e.code = true)
    ∧ (Helpers.isBadRequest e.code = true
        ↔ Helpers.getStringCode e.code = "23505"
          ∨ Helpers.getStringCode e.code = "23502")
    ∧ (Helpers.errorReplyStd e : Helpers.Reply Unit).error
        = some (Helpers.ErrPayload.dbRaw e.code)
    ∧ (Helpers.errorReplyStd e : Helpers.Reply Unit).data = none := by
  have hdb : (Helpers.errorReply e : Helpers.Reply Unit)
      = { status := if Helpers.parseIntJs e.code = some 23505
              ∨ Helpers.parseIntJs e.code = some 23502 then 400 else 500,
          error := some (Helpers.ErrPayload.dbInt (Helpers.parseIntJs e.code)),
          data := none } := by
    unfold Helpers.errorReply
    rw [if_neg h1, if_neg h2, if_neg h3, if_neg h4]
    rcases hpc : Helpers.parseIntJs e.code with _ | c
    · simp
    · by_cases hc5 : c = 23505
      · subst hc5
        simp [List.contains]
      · by_cases hc2 : c = 23502
        · subst hc2
          simp [List.contains]
        · simp [hc5, hc2, List.contains]
  have hstd : (Helpers.errorReplyStd e : Helpers.Reply Unit)
      = { status := if Helpers.isBadRequest e.code then 400 else 500,
          error := some (Helpers.ErrPayload.dbRaw e.code), data := none } := by
    unfold Helpers.errorReplyStd
    rw [if_neg h1, if_neg h3, if_neg h4]
  refine ⟨?_, ?_, by rw [hdb], by rw [hdb], ?_, ?_, by rw [hstd], by rw [hstd]⟩
  · rw [hdb]
    by_cases h : Helpers.parseIntJs e.code = some 23505
        ∨ Helpers.parseIntJs e.code = some 23502
    · simp [h]
    · simp [h]
  · rw [hdb]
    by_cases h : Helpers.parseIntJs e.code = some 23505
        ∨ Helpers.parseIntJs e.code = some 23502
    · simp [h]
    · simp [h]
  · rw [hstd]
    by_cases hb : Helpers.isBadRequest e.code = true
    · simp [hb]
    · simp [hb]
  · simp [Helpers.isBadRequest, Helpers.isCodeEqual, Helpers.getStringCode,
      Bool.or_eq_true, decide_eq_true_eq]

/-- Closed witness for C7: a driver error with code `'23505'` maps to
HTTP 400 with a `DBError` body. -/
theorem c7_db_error_mapping_witness :
    ((Helpers.errorReply { name := "error", message := "m", code := some "23505" }
        : Helpers.Reply Unit).status = 400
      ↔ Helpers.parseIntJs (some "23505") = some 23505
        ∨ Helpers.parseIntJs (some "23505") = some 23502)
    ∧ ((Helpers.errorReply { name := "error", message := "m", code := some "23505" }
        : Helpers.Reply Unit).status = 400
      ∨ (Helpers.errorReply { name := "error", message := "m", code := some "23505" }
        : Helpers.Reply Unit).status = 500)
    ∧ (Helpers.errorReply { name := "error", message := "m", code := some "23505" }
        : Helpers.Reply Unit).error
        = some (Helpers.ErrPayload.dbInt (Helpers.parseIntJs (some "23505")))
    ∧ (Helpers.errorReply { name := "error", message := "m", code := some "23505" }
        : Helpers.Reply Unit).data = none
    ∧ ((Helpers.errorReplyStd { name := "error", message := "m", code := some "23505" }
        : Helpers.Reply Unit).status = 400
      ↔ Helpers.isBadRequest (some "23505") = true)
    ∧ (Helpers.isBadRequest (some "23505") = true
      ↔ Helpers.getStringCode (some "23505") = "23505"
        ∨ Helpers.getStringCode (some "23505") = "23502")
    ∧ (Helpers.errorReplyStd { name := "error", message := "m", code := some "23505" }
        : Helpers.Reply Unit).error
        = some (Helpers.ErrPayload.dbRaw (some "23505"))
    ∧ (Helpers.errorReplyStd { name := "error", message := "m", code := some "23505" }
        : Helpers.Reply Unit).data = none :=
  c7_db_error_mapping { name := "error", message := "m", code := some "23505" }
    (by decide) (by decide) (by decide) (by decide)

/-- C9.  The single-record GET handler answers 404 exactly when the
number of matched rows differs from 1 (zero or several), and the
single-record PATCH handler answers 404 exactly when the number of
updated rows differs from 1; with exactly one row both answer 200 with
a null error. -/
theorem c9_single_record_requires_one_row {α : Type}
    (postSelect : List (JsObj α) → List (JsObj α)) (rows rows2 : List (JsObj α))
    (rowCount : Nat) :
    ((Controller.findOneRespond postSelect rows).status = 404 ↔ rows.length ≠ 1)
    ∧ (rows.length = 1 →
        (Controller.findOneRespond postSelect rows).status = 200
        ∧ (Controller.findOneRespond postSelect rows).error = none)
    ∧ ((Controller.updateOneRespond rows2 rowCount).status = 404 ↔ rowCount ≠ 1)
    ∧ (rowCount = 1 →
        (Controller.updateOneRespond rows2 rowCount).status = 200
        ∧ (Controller.updateOneRespond rows2 rowCount).error = none) := by
  refine ⟨?_, ?_, ?_, ?_⟩
  · by_cases h : rows.length = 1
    · simp [Controller.findOneRespond, h]
    · simp [Controller.findOneRespond, h, Helpers.errorReply, Helpers.formatError,
        notFoundError]
  · intro h
    simp [Controller.findOneRespond, h]
  · by_cases h : rowCount = 1
    · simp [Controller.updateOneRespond, h]
    · simp [Controller.updateOneRespond, h, Helpers.errorReply, Helpers.formatError,
        notFoundError]
  · intro h
    simp [Controller.updateOneRespond, h]

/-- Closed witness for C9: two matched rows still answer 404 on the
single-record GET; one updated row answers 200. -/
theorem c9_single_record_requires_one_row_witness :
    ((Controller.findOneRespond (fun rs => rs)
        ([[("a", "1")], [("a", "2")]] : List (JsObj String))).status = 404
      ↔ ([[("a", "1")], [("a", "2")]] : List (JsObj String)).length ≠ 1)
    ∧ (([("a", "1")] : List (String × String)) :: [] ≠ []
      → (Controller.updateOneRespond ([[("a", "1")]] : List (JsObj String)) 1).status
          = 200) := by
  constructor
  · exact (c9_single_record_requires_one_row (fun rs => rs)
      ([[("a", "1")], [("a", "2")]] : List (JsObj String)) [] 0).1
  · intro h
    exact ((c9_single_record_requires_one_row (fun rs => rs)
      ([] : List (JsObj String)) ([[("a", "1")]] : List (JsObj String)) 1).2.2.2 rfl).1

/-- C2.  When a request carries a path identifier and a JSON filter
query parameter naming the primary key, both request processors put the
path identifier at `filter[primaryKey]`, overriding the query-string
entry, while every other query-string filter key keeps its value:
`Request.processRequest` via `Object.assign({}, queryFilter, pathFilter)`
and `getRequestData` via the property write after parsing. -/
theorem c2_path_id_overrides_query_filter {α : Type} (cfg : Req.ReqConfig)
    (req : Req.PRequest α) (pf : JsObj α) (pid : α)
    (hid : req.paramsId = some pid) (hqf : req.queryFilter = some pf)
    (hnd : (objKeys pf).Nodup) :
    objGet (Req.assembledFilter cfg req) cfg.primaryKey = some pid
    ∧ (∀ k : String, k ≠ cfg.primaryKey →
        objGet (Req.assembledFilter cfg req) k = objGet pf k)
    ∧ objGet (Helpers.getRequestDataFilter cfg.primaryKey (some pid) (some pf))
        cfg.primaryKey = some pid
    ∧ (∀ k : String, k ≠ cfg.primaryKey →
        objGet (Helpers.getRequestDataFilter cfg.primaryKey (some pid) (some pf)) k
          = objGet pf k) := by
  have hform : Req.assembledFilter cfg req
      = objSet (objAssign [] pf) cfg.primaryKey pid := by
    unfold Req.assembledFilter
    rw [hid, hqf]
    rfl
  refine ⟨?_, ?_, ?_, ?_⟩
  · rw [hform]
    exact objGet_objSet_self _ _ _
  · intro k hk
    rw [hform, objGet_objSet_other _ _ _ _ hk, objGet_objAssign [] pf k hnd]
    cases objGet pf k <;> simp [Option.or, objGet, List.find?]
  · unfold Helpers.getRequestDataFilter
    exact objGet_objSet_self _ _ _
  · intro k hk
    unfold Helpers.getRequestDataFilter
    exact objGet_objSet_other _ _ _ _ hk

/-- Closed witness for C2 at a concrete request whose query filter also
names the primary key. -/
theorem c2_path_id_overrides_query_filter_witness :
    objGet
        (Req.assembledFilter { primaryKey := "id", pagination := none }
          { method := "GET", paramsId := some "7",
            queryFilter := some [("id", "9"), ("x", "1")] })
        "id" = some "7"
    ∧ ∀ k : String, k ≠ "id" →
        objGet
            (Req.assembledFilter { primaryKey := "id", pagination := none }
              { method := "GET", paramsId := some "7",
                queryFilter := some [("id", "9"), ("x", "1")] })
            k = objGet [("id", "9"), ("x", "1")] k := by
  have h := c2_path_id_overrides_query_filter
    { primaryKey := "id", pagination := none }
    { method := "GET", paramsId := some "7",
      queryFilter := some [("id", "9"), ("x", "1")] }
    [("id", "9"), ("x", "1")] "7" rfl rfl (by decide)
  exact ⟨h.1, h.2.1⟩

/-- C3.  Bulk update (PATCH on the collection path) and bulk delete
(DELETE on the collection path) are refused with a validation error
while the filter is empty — in `Request.processRequest` before the
command is ever returned to the query-building caller, and in the
controller's `updateMany`/`deleteMany` via `validateFilter(_, _, true)`
before any database operation is issued — and proceed once the filter is
non-empty; the validation error maps to HTTP 400. -/
theorem c3_bulk_mutation_requires_filter {α : Type} (cfg : Req.ReqConfig)
    (validate : Req.Command α → Option JsError)
    (preQuery : Req.Command α → Req.Command α) (req : Req.PRequest α)
    (pf filter payload : JsObj α)
    (joiFilter joiPayload : JsObj α → Option JsError)
    (dbRows : List (JsObj α)) (dbRowCount : Nat) :
    ((req.method = "PATCH" ∨ req.method = "DELETE") → req.paramsId = none →
      (req.queryFilter = none ∨ req.queryFilter = some []) →
      validate (Req.assembledCommand cfg req) = none →
      Req.processRequest cfg validate preQuery req
        = .error (validationError "For PUT/PATCH/DELETE, filter criteria cannot be empty"))
    ∧ (req.paramsId = none → req.queryFilter = some pf → pf ≠ [] →
        validate (Req.assembledCommand cfg req) = none →
        Req.processRequest cfg validate preQuery req
          = .ok (preQuery (Req.assembledCommand cfg req)))
    ∧ (Helpers.errorReply
          (validationError "For PUT/PATCH/DELETE, filter criteria cannot be empty")
          : Helpers.Reply Unit).status = 400
    ∧ (Controller.updateManyHandler joiFilter joiPayload [] payload dbRows dbRowCount
          = (Helpers.errorReply (validationError "Filter parameter is required"), [])
        ∧ (Controller.updateManyHandler joiFilter joiPayload [] payload dbRows
            dbRowCount).1.status = 400)
    ∧ (filter ≠ [] → joiFilter filter = none → joiPayload payload = none →
        (Controller.updateManyHandler joiFilter joiPayload filter payload dbRows
            dbRowCount).2 = [Controller.DbOp.updateOp])
    ∧ (Controller.deleteManyHandler joiFilter [] dbRowCount
          = (Helpers.errorReply (validationError "Filter parameter is required"), [])
        ∧ (Controller.deleteManyHandler joiFilter [] dbRowCount).1.status = 400)
    ∧ (filter ≠ [] → joiFilter filter = none →
        (Controller.deleteManyHandler joiFilter filter dbRowCount).2
          = [Controller.DbOp.deleteOp]) := by
  refine ⟨?_, ?_, rfl, ⟨rfl, rfl⟩, ?_, ⟨rfl, rfl⟩, ?_⟩
  · intro hm hid hqf hv
    have hfl : (Req.assembledCommand cfg req).filter = [] := by
      show Req.assembledFilter cfg req = []
      unfold Req.assembledFilter
      rcases hqf with hqf | hqf <;> rw [hid, hqf] <;> rfl
    have hmm : Req.methodMatchesMutate req.method = true := by
      rcases hm with hm | hm <;> rw [hm] <;> decide
    simp only [Req.processRequest]
    rw [hv, hfl, hmm]
    rfl
  · intro hid hqf hne hv
    have hfl : (Req.assembledCommand cfg req).filter = objAssign [] pf := by
      show Req.assembledFilter cfg req = _
      unfold Req.assembledFilter
      rw [hid, hqf]
      rfl
    have hlen : 1 ≤ (objAssign ([] : JsObj α) pf).length := by
      match pf, hne with
      | kv :: rest, _ =>
        have hstep : objAssign ([] : JsObj α) (kv :: rest)
            = objAssign [(kv.1, kv.2)] rest := rfl
        rw [hstep]
        simpa using length_objAssign [(kv.1, kv.2)] rest
    simp only [Req.processRequest]
    rw [hv, hfl]
    have hcond : decide ((objAssign ([] : JsObj α) pf).length < 1) = false := by
      simp [Nat.not_lt.mpr hlen]
    rw [hcond, Bool.and_false]
    rfl
  · intro hne hjf hjp
    cases filter with
    | nil => exact absurd rfl hne
    | cons kv rest =>
        simp [Controller.updateManyHandler, Validators.validateFilter, hjf, hjp]
  · intro hne hjf
    cases filter with
    | nil => exact absurd rfl hne
    | cons kv rest =>
        simp [Controller.deleteManyHandler, Validators.validateFilter, hjf]

/-- Closed witness for C3: a bulk PATCH with an empty filter is refused
before reaching the database; a non-empty filter proceeds to exactly one
update operation. -/
theorem c3_bulk_mutation_requires_filter_witness :
    Req.processRequest { primaryKey := "id", pagination := none }
        (fun _ => none) (fun c => c)
        ({ method := "PATCH" } : Req.PRequest String)
      = .error (validationError "For PUT/PATCH/DELETE, filter criteria cannot be empty")
    ∧ (Controller.updateManyHandler (fun _ => none) (fun _ => none)
        ([("x", "1")] : JsObj String) [] [] 0).2 = [Controller.DbOp.updateOp] := by
  have h := c3_bulk_mutation_requires_filter
    { primaryKey := "id", pagination := none } (fun _ => none) (fun c => c)
    ({ method := "PATCH" } : Req.PRequest String) [] [("x", "1")] []
    (fun _ => none) (fun _ => none) [] 0
  exact ⟨h.1 (Or.inl rfl) rfl (Or.inl rfl) rfl,
    h.2.2.2.2.1 (by decide) rfl rfl⟩

/-- C10.  An entity binding that sets neither `primaryKeyAuto` nor
`primaryKeyGuid` gets the defaults `primaryKeyAuto = false`,
`primaryKeyGuid = true`, and under those defaults `create` overwrites
the payload's primary-key property with the freshly generated UUID; a
caller-supplied primary key survives to insertion (is admitted by the
payload schema and left untouched by `create`) exactly when
`primaryKeyGuid` is explicitly `false` and `primaryKeyAuto` is
`false`. -/
theorem c10_primary_key_guid_default {α : Type} (uc : RestApi.UserApiConfig)
    (u : α) (hpk : uc.primaryKey ∈ uc.validationKeys) :
    (uc.primaryKeyAuto = none → uc.primaryKeyGuid = none →
      (RestApi.applyDefaults uc).primaryKeyAuto = false
      ∧ (RestApi.applyDefaults uc).primaryKeyGuid = true
      ∧ ∀ data : JsObj α,
          objGet (RestApi.createApplyPrimaryKey (RestApi.applyDefaults uc) data u)
              (RestApi.applyDefaults uc).primaryKey = some u)
    ∧ (((RestApi.applyDefaults uc).primaryKey
            ∈ RestApi.dataSchemaKeys (RestApi.applyDefaults uc)
        ∧ ∀ data : JsObj α,
            objGet (RestApi.createApplyPrimaryKey (RestApi.applyDefaults uc) data u)
                (RestApi.applyDefaults uc).primaryKey
              = objGet data (RestApi.applyDefaults uc).primaryKey)
      ↔ (uc.primaryKeyGuid = some false
          ∧ (RestApi.applyDefaults uc).primaryKeyAuto = false)) := by
  constructor
  · intro ha hg
    have hA : (RestApi.applyDefaults uc).primaryKeyAuto = false := by
      simp [RestApi.applyDefaults, ha]
    have hG : (RestApi.applyDefaults uc).primaryKeyGuid = true := by
      simp [RestApi.applyDefaults, hg]
    refine ⟨hA, hG, fun data => ?_⟩
    unfold RestApi.createApplyPrimaryKey
    rw [hA, hG]
    simpa using objGet_objSet_self data (RestApi.applyDefaults uc).primaryKey u
  · constructor
    · rintro ⟨hmem, hall⟩
      by_cases hA : (RestApi.applyDefaults uc).primaryKeyAuto = true
      · exfalso
        have hperm : RestApi.permitPrimaryKey (RestApi.applyDefaults uc) = false := by
          simp [RestApi.permitPrimaryKey, hA]
        rw [RestApi.dataSchemaKeys, hperm] at hmem
        simp only [Bool.false_eq_true, if_false] at hmem
        have := (List.mem_filter.mp hmem).2
        simp at this
      · have hA' : (RestApi.applyDefaults uc).primaryKeyAuto = false := by
          simpa using hA
        by_cases hG : (RestApi.applyDefaults uc).primaryKeyGuid = true
        · exfalso
          have hset := hall []
          unfold RestApi.createApplyPrimaryKey at hset
          rw [hA', hG] at hset
          simp [objGet_objSet_self, objGet, List.find?] at hset
        · have hG' : (RestApi.applyDefaults uc).primaryKeyGuid = false := by
            simpa using hG
          refine ⟨?_, hA'⟩
          have hfalse : uc.primaryKeyGuid.getD true = false := by
            have hh := hG'
            simp [RestApi.applyDefaults] at hh
            exact hh
          cases hgg : uc.primaryKeyGuid with
          | none => rw [hgg] at hfalse; simp at hfalse
          | some b =>
              rw [hgg] at hfalse
              simp at hfalse
              rw [hfalse]
    · rintro ⟨hg, hA⟩
      have hG : (RestApi.applyDefaults uc).primaryKeyGuid = false := by
        simp [RestApi.applyDefaults, hg]
      have hperm : RestApi.permitPrimaryKey (RestApi.applyDefaults uc) = true := by
        simp [RestApi.permitPrimaryKey, hA, hG]
      constructor
      · rw [RestApi.dataSchemaKeys, hperm]
        simpa [RestApi.applyDefaults] using hpk
      · intro data
        unfold RestApi.createApplyPrimaryKey
        rw [hA, hG]
        simp

/-- Closed witness for C10: with neither flag configured, create writes
the fresh UUID over the primary-key property. -/
theorem c10_primary_key_guid_default_witness :
    (RestApi.applyDefaults
        { primaryKey := "id", validationKeys := ["id", "ip"] }).primaryKeyAuto = false
    ∧ (RestApi.applyDefaults
        { primaryKey := "id", validationKeys := ["id", "ip"] }).primaryKeyGuid = true
    ∧ ∀ data : JsObj String,
        objGet
            (RestApi.createApplyPrimaryKey
              (RestApi.applyDefaults { primaryKey := "id", validationKeys := ["id", "ip"] })
              data "3f2a")
            (RestApi.applyDefaults
              { primaryKey := "id", validationKeys := ["id", "ip"] }).primaryKey
          = some "3f2a" :=
  (c10_primary_key_guid_default
    { primaryKey := "id", validationKeys := ["id", "ip"] } "3f2a" (by decide)).1 rfl rfl

namespace Filters

mutual

theorem walkCollect_not_object (v : JsVal) :
    ∀ x ∈ walkCollect v, isObjectType x = false := by
  cases v with
  | obj fields =>
      intro x hx
      exact walkFields_not_object fields x (by simpa [walkCollect] using hx)
  | arr elems =>
      intro x hx
      exact walkElems_not_object elems x (by simpa [walkCollect] using hx)
  | str s => intro x hx; simp [walkCollect] at hx
  | num n => intro x hx; simp [walkCollect] at hx
  | boolean b => intro x hx; simp [walkCollect] at hx
  | nullV => intro x hx; simp [walkCollect] at hx

theorem walkFields_not_object (fields : List (String × JsVal)) :
    ∀ x ∈ walkFields fields, isObjectType x = false := by
  cases fields with
  | nil => intro x hx; simp [walkFields] at hx
  | cons kv rest =>
      intro x hx
      obtain ⟨k, v⟩ := kv
      rw [walkFields] at hx
      rcases List.mem_append.mp hx with hx | hx
      · rcases List.mem_append.mp hx with hx | hx
        · by_cases hobj : isObjectType v
          · simp [hobj] at hx
          · by_cases hlike : isLikeKey k
            · simp [hobj, hlike] at hx
            · simp [hobj, hlike] at hx
              subst hx
              simpa using hobj
        · by_cases hobj : isObjectType v
          · rw [if_pos hobj] at hx
            exact walkCollect_not_object v x hx
          · simp [hobj] at hx
      · exact walkFields_not_object rest x hx

theorem walkElems_not_object (elems : List JsVal) :
    ∀ x ∈ walkElems elems, isObjectType x = false := by
  cases elems with
  | nil => intro x hx; simp [walkElems] at hx
  | cons v rest =>
      intro x hx
      rw [walkElems] at hx
      rcases List.mem_append.mp hx with hx | hx
      · rcases List.mem_append.mp hx with hx | hx
        · by_cases hobj : isObjectType v
          · simp [hobj] at hx
          · simp [hobj] at hx
            subst hx
            simpa using hobj
        · by_cases hobj : isObjectType v
          · rw [if_pos hobj] at hx
            exact walkCollect_not_object v x hx
          · simp [hobj] at hx
      · exact walkElems_not_object rest x hx

end

theorem walkFields_like_skip (k : String) (v : JsVal)
    (rest : List (String × JsVal)) (hk : isLikeKey k = true)
    (hv : isObjectType v = false) :
    walkFields ((k, v) :: rest) = walkFields rest := by
  rw [walkFields]
  simp [hk, hv]

theorem getFilterValues_flat (filter : JsObj JsVal)
    (h : ∀ kv ∈ filter, isObjectType kv.2 = false ∨ isJsArray kv.2 = true
        ∨ isNullVal kv.2 = true) :
    getFilterValues filter = filter := by
  induction filter with
  | nil => rfl
  | cons kv rest ih =>
    have hkv := h kv (List.mem_cons_self kv rest)
    have hval : normalizeValue kv.2 = kv.2 := by
      unfold normalizeValue
      rcases hkv with h1 | h1 | h1 <;> simp [h1]
    have hrest := ih (fun kv2 hm => h kv2 (List.mem_cons_of_mem _ hm))
    show (kv.1, normalizeValue kv.2) :: getFilterValues rest = kv :: rest
    rw [hval, hrest]

end Filters

/-- C8.  Filter-value normalisation leaves an already-flat filter
unchanged (values that are scalars, `null`, or arrays pass through), so
it is idempotent on such filters; an operator object is replaced by the
array of its leaf values collected in traversal order, every collected
leaf is a non-object, keys matching `$like`/`$ilike` case-insensitively
have their (scalar) values excluded from collection, and the operator
keys `$or` is not so excluded. -/
theorem c8_filter_normalization (filter : JsObj JsVal) :
    ((∀ kv ∈ filter, Filters.isObjectType kv.2 = false
        ∨ Filters.isJsArray kv.2 = true ∨ Filters.isNullVal kv.2 = true) →
      Filters.getFilterValues filter = filter
      ∧ Filters.getFilterValues (Filters.getFilterValues filter)
          = Filters.getFilterValues filter)
    ∧ (∀ fs : List (String × JsVal),
        Filters.normalizeValue (JsVal.obj fs)
          = JsVal.arr (Filters.walkCollect (JsVal.obj fs)))
    ∧ (∀ v : JsVal, ∀ x ∈ Filters.walkCollect v, Filters.isObjectType x = false)
    ∧ (∀ (k : String) (v : JsVal) (rest : List (String × JsVal)),
        Filters.isLikeKey k = true → Filters.isObjectType v = false →
        Filters.walkFields ((k, v) :: rest) = Filters.walkFields rest)
    ∧ Filters.isLikeKey "$ILike" = true ∧ Filters.isLikeKey "$ilike" = true
    ∧ Filters.isLikeKey "$or" = false := by
  refine ⟨?_, fun fs => rfl, Filters.walkCollect_not_object,
    Filters.walkFields_like_skip, by decide, by decide, by decide⟩
  intro h
  have h1 := Filters.getFilterValues_flat filter h
  exact ⟨h1, by rw [h1, h1]⟩

/-- Closed witness for C8 on a flat filter mixing the three pass-through
shapes. -/
theorem c8_filter_normalization_witness :
    Filters.getFilterValues
        [("a", JsVal.str "x"), ("b", JsVal.nullV),
         ("c", JsVal.arr [JsVal.num 1, JsVal.num 2])]
      = [("a", JsVal.str "x"), ("b", JsVal.nullV),
         ("c", JsVal.arr [JsVal.num 1, JsVal.num 2])] :=
  ((c8_filter_normalization
      [("a", JsVal.str "x"), ("b", JsVal.nullV),
       ("c", JsVal.arr [JsVal.num 1, JsVal.num 2])]).1 (by decide)).1

namespace Validators

theorem insertKey_perm (x : String) (l : List String) :
    (insertKey x l).Perm (x :: l) := by
  induction l with
  | nil => simp [insertKey]
  | cons y ys ih =>
    by_cases h : strLeB x y
    · simp [insertKey, h]
    · rw [insertKey, if_neg h]
      exact (ih.cons y).trans (List.Perm.swap x y ys)

theorem sortKeys_perm (l : List String) : (sortKeys l).Perm l := by
  induction l with
  | nil => simp [sortKeys]
  | cons x xs ih =>
    have h1 : sortKeys (x :: xs) = insertKey x (sortKeys xs) := rfl
    rw [h1]
    exact (insertKey_perm x (sortKeys xs)).trans (ih.cons x)

theorem joinComma_data : ∀ l : List String,
    (joinComma l).data = joinCommaChars (l.map String.data)
  | [] => rfl
  | [x] => rfl
  | x :: y :: rest => by
      show (x ++ "," ++ joinComma (y :: rest)).data = _
      rw [String.data_append, String.data_append, joinComma_data (y :: rest)]
      show x.data ++ [','] ++ joinCommaChars ((y :: rest).map String.data)
          = x.data ++ ',' :: joinCommaChars ((y :: rest).map String.data)
      simp

theorem splitComma : ∀ (a b x y : List Char), ',' ∉ a → ',' ∉ b →
    a ++ ',' :: x = b ++ ',' :: y → a = b ∧ x = y := by
  intro a
  induction a with
  | nil =>
    intro b x y _ hb h
    cases b with
    | nil => simpa using h
    | cons c bs =>
      simp only [List.nil_append, List.cons_append] at h
      injection h with h1 h2
      have hmem : ',' ∈ c :: bs := by
        rw [← h1]
        exact List.mem_cons_self _ _
      exact absurd hmem hb
  | cons c as ih =>
    intro b x y ha hb h
    cases b with
    | nil =>
      simp only [List.cons_append, List.nil_append] at h
      injection h with h1 h2
      have hmem : ',' ∈ c :: as := by
        rw [← h1]
        exact List.mem_cons_self _ _
      exact absurd hmem ha
    | cons d bs =>
      simp only [List.cons_append] at h
      injection h with h1 h2
      have ha' : ',' ∉ as := fun hm => ha (List.mem_cons_of_mem _ hm)
      have hb' : ',' ∉ bs := fun hm => hb (List.mem_cons_of_mem _ hm)
      obtain ⟨hab, hxy⟩ := ih bs x y ha' hb' h2
      exact ⟨by rw [h1, hab], hxy⟩

theorem joinCommaChars_inj (l1 : List (List Char)) :
    ∀ l2 : List (List Char),
      (∀ p ∈ l1, p ≠ [] ∧ ',' ∉ p) → (∀ p ∈ l2, p ≠ [] ∧ ',' ∉ p) →
      joinCommaChars l1 = joinCommaChars l2 → l1 = l2 := by
  induction l1 with
  | nil =>
    intro l2 _ h2 h
    cases l2 with
    | nil => rfl
    | cons z r2 =>
      exfalso
      cases r2 with
      | nil => exact (h2 z (List.mem_cons_self _ _)).1 h.symm
      | cons y2 r2' =>
        rw [show joinCommaChars [] = [] from rfl,
          show joinCommaChars (z :: y2 :: r2')
            = z ++ ',' :: joinCommaChars (y2 :: r2') from rfl] at h
        exact absurd h.symm (by simp)
  | cons x r1 ih =>
    intro l2 h1 h2 h
    cases l2 with
    | nil =>
      exfalso
      cases r1 with
      | nil => exact (h1 x (List.mem_cons_self _ _)).1 h
      | cons y1 r1' =>
        rw [show joinCommaChars [] = [] from rfl,
          show joinCommaChars (x :: y1 :: r1')
            = x ++ ',' :: joinCommaChars (y1 :: r1') from rfl] at h
        exact absurd h (by simp)
    | cons z r2 =>
      cases r1 with
      | nil =>
        cases r2 with
        | nil =>
          rw [show joinCommaChars [x] = x from rfl,
            show joinCommaChars [z] = z from rfl] at h
          rw [h]
        | cons y2 r2' =>
          exfalso
          rw [show joinCommaChars [x] = x from rfl,
            show joinCommaChars (z :: y2 :: r2')
              = z ++ ',' :: joinCommaChars (y2 :: r2') from rfl] at h
          have hx := (h1 x (List.mem_cons_self _ _)).2
          rw [h] at hx
          exact hx (by simp)
      | cons y1 r1' =>
        cases r2 with
        | nil =>
          exfalso
          rw [show joinCommaChars [z] = z from rfl,
            show joinCommaChars (x :: y1 :: r1')
              = x ++ ',' :: joinCommaChars (y1 :: r1') from rfl] at h
          have hz := (h2 z (List.mem_cons_self _ _)).2
          rw [← h] at hz
          exact hz (by simp)
        | cons y2 r2' =>
          rw [show joinCommaChars (x :: y1 :: r1')
                = x ++ ',' :: joinCommaChars (y1 :: r1') from rfl,
            show joinCommaChars (z :: y2 :: r2')
              = z ++ ',' :: joinCommaChars (y2 :: r2') from rfl] at h
          obtain ⟨hxz, hrest⟩ := splitComma x z _ _
            (h1 x (List.mem_cons_self _ _)).2 (h2 z (List.mem_cons_self _ _)).2 h
          have htail := ih (y2 :: r2')
            (fun p hp => h1 p (List.mem_cons_of_mem _ hp))
            (fun p hp => h2 p (List.mem_cons_of_mem _ hp)) hrest
          rw [hxz, htail]

theorem perm_of_keyStr_eq {α : Type} (r1 r2 : JsObj α)
    (h1 : ∀ k ∈ objKeys r1, k ≠ "" ∧ ',' ∉ k.data)
    (h2 : ∀ k ∈ objKeys r2, k ≠ "" ∧ ',' ∉ k.data)
    (h : keyStr r1 = keyStr r2) :
    (objKeys r1).Perm (objKeys r2) := by
  unfold keyStr at h
  have hd : (joinComma (sortKeys (objKeys r1))).data
      = (joinComma (sortKeys (objKeys r2))).data := by rw [h]
  rw [joinComma_data, joinComma_data] at hd
  have hcond : ∀ (r : JsObj α),
      (∀ k ∈ objKeys r, k ≠ "" ∧ ',' ∉ k.data) →
      ∀ p ∈ (sortKeys (objKeys r)).map String.data, p ≠ [] ∧ ',' ∉ p := by
    intro r hr p hp
    obtain ⟨s, hs, rfl⟩ := List.mem_map.mp hp
    have hsk : s ∈ objKeys r := (sortKeys_perm (objKeys r)).mem_iff.mp hs
    obtain ⟨hne, hnc⟩ := hr s hsk
    exact ⟨fun hh => hne (String.ext hh), hnc⟩
  have heq := joinCommaChars_inj _ _ (hcond r1 h1) (hcond r2 h2) hd
  have hinj : Function.Injective String.data := fun a b hab => String.ext hab
  have hsort : sortKeys (objKeys r1) = sortKeys (objKeys r2) :=
    (List.map_injective_iff.mpr hinj) heq
  exact ((sortKeys_perm (objKeys r1)).symm.trans
    (hsort ▸ sortKeys_perm (objKeys r2)))

theorem checkIdenticalKeys_false_of_not_perm {α : Type} (rows : List (JsObj α))
    (a b : JsObj α) (ha : a ∈ rows) (hb : b ∈ rows)
    (hkeys : ∀ r ∈ rows, ∀ k ∈ objKeys r, k ≠ "" ∧ ',' ∉ k.data)
    (hnp : ¬ (objKeys a).Perm (objKeys b)) :
    checkIdenticalKeys rows = false := by
  by_contra htrue
  rw [Bool.not_eq_false] at htrue
  cases rows with
  | nil => cases ha
  | cons first rest =>
    rw [checkIdenticalKeys] at htrue
    have hall := List.all_eq_true.mp htrue
    have hA := hall a ha
    have hB := hall b hb
    simp only [decide_eq_true_eq] at hA hB
    have hAB : keyStr a = keyStr b := by rw [hA, hB]
    exact hnp (perm_of_keyStr_eq a b (hkeys a ha) (hkeys b hb) hAB)

end Validators

/-- C6 counterexample.  The identical-keys guard compares the rows'
sorted keys joined with commas, so a field name that itself contains a
comma collides with a pair of comma-free names: the two rows
`{"a,b": 1}` and `{"a": 1, "b": 2}` have different key sets, yet
`checkIdenticalKeys` reports them identical and `validateCreatePayload`
hands the payload to per-row schema validation (here an accepting
engine, so the payload passes) instead of rejecting it first — refuting
the claim that any two elements with different key sets are rejected
before per-row validation. -/
theorem c6_counterexample_comma_collision :
    Validators.checkIdenticalKeys
        ([[("a,b", "1")], [("a", "1"), ("b", "2")]] : List (JsObj String)) = true
    ∧ ¬ (objKeys ([("a,b", "1")] : JsObj String)).Perm
          (objKeys ([("a", "1"), ("b", "2")] : JsObj String))
    ∧ Validators.validateCreatePayload (fun _ _ => none)
        { primaryKey := "id", validationKeys := ["a", "b"],
          primaryKeyAuto := false, primaryKeyGuid := false }
        (.multi ([[("a,b", "1")], [("a", "1"), ("b", "2")]] : List (JsObj String)))
      = none
    ∧ Validators.validateCreatePayload (fun _ _ => none)
        { primaryKey := "id", validationKeys := ["a", "b"],
          primaryKeyAuto := false, primaryKeyGuid := false }
        (.multi ([[("a,b", "1")], [("a", "1"), ("b", "2")]] : List (JsObj String)))
      ≠ some (validationError "All objects must have same keys in multi-row insert") := by
  refine ⟨by decide, by decide, by decide, by decide⟩

/-- C6 (amended).  A multi-row create payload is rejected, before any
per-row schema validation runs, exactly when some row's sorted
comma-joined key string differs from the first row's; when the field
names are non-empty and comma-free, any two rows whose key lists are
not permutations of one another force that rejection.  When the guard passes, every row is validated against the
same row schema, in which the primary key is forbidden exactly when it
is server-generated (auto or guid).  Field names containing commas (or
empty names) can make different key sets compare equal, in which case
the payload proceeds to per-row validation (see the counterexample). -/
theorem c6_multi_row_identical_keys {α : Type} (cfg : RestApi.ApiConfig)
    (rows : List (JsObj α)) (a b : JsObj α)
    (joi joi2 : Validators.JoiObjSchema → JsObj α → Option JsError) :
    (Validators.checkIdenticalKeys rows = false →
      Validators.validateCreatePayload joi cfg (.multi rows)
        = some (validationError "All objects must have same keys in multi-row insert")
      ∧ Validators.validateCreatePayload joi cfg (.multi rows)
        = Validators.validateCreatePayload joi2 cfg (.multi rows))
    ∧ (Validators.checkIdenticalKeys rows = true →
        Validators.validateCreatePayload joi cfg (.multi rows)
          = rows.findSome? (joi (Validators.rowSchema cfg)))
    ∧ ((cfg.primaryKeyAuto || cfg.primaryKeyGuid) = true →
        cfg.primaryKey ∈ (Validators.rowSchema cfg).forbiddenKeys)
    ∧ ((cfg.primaryKeyAuto || cfg.primaryKeyGuid) = false →
        (Validators.rowSchema cfg).forbiddenKeys = [])
    ∧ (a ∈ rows → b ∈ rows →
        (∀ r ∈ rows, ∀ k ∈ objKeys r, k ≠ "" ∧ ',' ∉ k.data) →
        ¬ (objKeys a).Perm (objKeys b) →
        Validators.checkIdenticalKeys rows = false) := by
  refine ⟨?_, ?_, ?_, ?_, ?_⟩
  · intro hf
    simp [Validators.validateCreatePayload, hf]
  · intro ht
    simp [Validators.validateCreatePayload, ht]
  · intro hsg
    unfold Validators.rowSchema
    rw [hsg]
    simp [Validators.baseSchema, Validators.JoiObjSchema.forbid]
  · intro hsg
    unfold Validators.rowSchema
    rw [hsg]
    simp [Validators.baseSchema]
  · exact Validators.checkIdenticalKeys_false_of_not_perm rows a b

/-- Closed witness for C6 (amended): two comma-free rows with different
key sets are rejected before per-row validation, independently of the
validation engine. -/
theorem c6_multi_row_identical_keys_witness :
    Validators.validateCreatePayload
        (fun _ _ => none)
        { primaryKey := "id", validationKeys := ["a", "b"],
          primaryKeyAuto := false, primaryKeyGuid := false }
        (.multi ([[("a", "1")], [("b", "2")]] : List (JsObj String)))
      = some (validationError "All objects must have same keys in multi-row insert") := by
  have h := c6_multi_row_identical_keys
    { primaryKey := "id", validationKeys := ["a", "b"],
      primaryKeyAuto := false, primaryKeyGuid := false }
    ([[("a", "1")], [("b", "2")]] : List (JsObj String))
    [("a", "1")] [("b", "2")] (fun _ _ => none) (fun _ _ => none)
  have hfalse := h.2.2.2.2 (by decide) (by decide) (by decide) (by decide)
  exact (h.1 hfalse).1

end HapiPg
